import Mathlib

/-!
Verification development for the hackathon-hub listing UI.

The development embeds, as Lean functions, the client-side filter/sort
pipeline of the listing page (`filteredHackathons` in
`src/pages/HackathonDetail.tsx`, the `HackathonsPage` component), the
save/unsave handlers of the detail and listing pages, and the countdown
engine of the `useCountdown` hook.

Modelling conventions:
* Timestamp fields (`registration_deadline`, `created_at`, `start_date`,
  `end_date`) are integer milliseconds since the epoch — the value the
  source obtains with `new Date(isoString).getTime()`.  Comparisons and
  subtraction on these integers mirror the source's comparisons on the
  parsed dates.
* Optional record fields (`description`, `skills`, `location`, ...) are
  `Option`s; JavaScript's optional chaining `x?.f`, which yields a falsy
  `undefined` when `x` is null, is the `none` branch of a `match`.
* JavaScript strings are Lean `String`s; `s.toLowerCase()` is
  `String.toLower`, `hay.includes(needle)` is "the character list of
  `needle` is a contiguous sublist of the character list of `hay`"
  (the `<:+:` relation), and `Array.prototype.includes` on a string array
  is `List.contains`, i.e. exact equality.
* `Array.prototype.sort`, which ECMAScript requires to be a stable sort,
  is `List.mergeSort` (stable) with the boolean comparison
  "comparator result ≤ 0".
-/

/-- A hackathon record as fetched from the `hackathons` table
(`Hackathon` in `src/types/database`).  Fields the source reads through
optional chaining or truthiness tests are `Option`s. -/
structure Hackathon where
  id : String
  title : String
  description : Option String
  source : String
  mode : String
  start_date : Int
  end_date : Int
  registration_deadline : Int
  location : Option String
  prize_pool : Option String
  skills : Option (List String)
  image_url : Option String
  is_active : Bool
  created_at : Int
  registration_url : String
deriving DecidableEq

/-- The filter state of the listing page (`HackathonFilters` in
`src/components/hackathons/HackathonFilters`): search text, optional
source, optional mode, required skills, online-only flag and sort key. -/
structure HackathonFilters where
  search : String
  source : Option String
  mode : Option String
  skills : List String
  onlineOnly : Bool
  sortBy : String
deriving DecidableEq

/-- The initial (all-default) filter state of the listing page:
`{ search: '', source: null, mode: null, skills: [], onlineOnly: false,
sortBy: 'deadline' }`. -/
def defaultFilters : HackathonFilters :=
  { search := "", source := none, mode := none, skills := [],
    onlineOnly := false, sortBy := "deadline" }

/-- JavaScript `hay.includes(needle)` on strings: `needle` occurs as a
contiguous substring of `hay`. -/
def strIncludes (hay needle : String) : Bool :=
  decide (needle.toList <:+: hay.toList)

/-- The search predicate of the pipeline (lines 572–577 of
`HackathonDetail.tsx`), applied with the already-lowercased search text:
`h.title.toLowerCase().includes(search) ||
 h.description?.toLowerCase().includes(search) ||
 h.skills?.some(s => s.toLowerCase().includes(search))`.
Optional chaining on an absent field yields a falsy value, hence the
`none` branches return `false`. -/
def matchesSearch (search : String) (h : Hackathon) : Bool :=
  strIncludes h.title.toLower search ||
  (match h.description with
   | some d => strIncludes d.toLower search
   | none => false) ||
  (match h.skills with
   | some sk => sk.any fun s => strIncludes s.toLower search
   | none => false)

/-- `h.skills?.includes(skill)` (line 593): exact string membership in the
record's skill list, `false` when the list is absent. -/
def hasSkill (h : Hackathon) (skill : String) : Bool :=
  match h.skills with
  | some sk => sk.contains skill
  | none => false

/-- Boolean rendering of the `deadline` sort comparator
`(a, b) => new Date(a.registration_deadline).getTime() -
           new Date(b.registration_deadline).getTime()`:
`a` may precede `b` iff the comparator is ≤ 0. -/
def deadlineLE (a b : Hackathon) : Bool :=
  decide (a.registration_deadline ≤ b.registration_deadline)

/-- Boolean rendering of the `newest` sort comparator
`(a, b) => new Date(b.created_at).getTime() -
           new Date(a.created_at).getTime()`:
`a` may precede `b` iff the comparator is ≤ 0, i.e. descending
`created_at`. -/
def newestLE (a b : Hackathon) : Bool :=
  decide (b.created_at ≤ a.created_at)

/-- Stage 1 — search (lines 569–578): skipped when the search text is
empty (falsy), otherwise filters with `matchesSearch` applied to the
lowercased search text. -/
def searchStage (f : HackathonFilters) (l : List Hackathon) : List Hackathon :=
  if f.search ≠ "" then l.filter (matchesSearch f.search.toLower) else l

/-- Stage 2 — source (lines 580–583): skipped when `filters.source` is
null, otherwise keeps records whose `source` equals the selected value. -/
def sourceStage (f : HackathonFilters) (l : List Hackathon) : List Hackathon :=
  match f.source with
  | some src => l.filter fun h => h.source == src
  | none => l

/-- Stage 3 — online only (lines 585–588): when the flag is set, keeps
records whose `mode` is `online` or `hybrid`. -/
def onlineStage (f : HackathonFilters) (l : List Hackathon) : List Hackathon :=
  if f.onlineOnly then l.filter (fun h => h.mode == "online" || h.mode == "hybrid") else l

/-- Stage 4 — skills (lines 590–595): when the required-skills list is
non-empty, keeps records for which **some** required skill is in the
record's skill list (`filters.skills.some(skill => h.skills?.includes(skill))`). -/
def skillsStage (f : HackathonFilters) (l : List Hackathon) : List Hackathon :=
  if f.skills.length > 0 then
    l.filter fun h => f.skills.any fun skill => hasSkill h skill
  else l

/-- Stage 5 — sort (lines 597–606): stable sort ascending by
`registration_deadline` for sort key `deadline`, stable sort descending
by `created_at` for `newest`, and no sort otherwise. -/
def sortStage (f : HackathonFilters) (l : List Hackathon) : List Hackathon :=
  if f.sortBy = "deadline" then l.mergeSort deadlineLE
  else if f.sortBy = "newest" then l.mergeSort newestLE
  else l

/-- The four filtering stages (pre-sort part of `filteredHackathons`),
applied in source order. -/
def filterStages (f : HackathonFilters) (l : List Hackathon) : List Hackathon :=
  skillsStage f (onlineStage f (sourceStage f (searchStage f l)))

/-- The whole `filteredHackathons` pipeline (lines 566–609): copy the
fetched array, run the four filter stages, then sort. -/
def applyFilters (hackathons : List Hackathon) (filters : HackathonFilters) :
    List Hackathon :=
  sortStage filters (filterStages filters hackathons)

/-- State-passing rendering of the same computation, making the
source's aliasing explicit: `let result = [...hackathons]` allocates a
fresh array holding a copy of the caller's elements, every `filter` call
allocates a further fresh array, and the in-place `result.sort(...)`
mutates only the last of those fresh arrays.  The first component is the
content of the caller's `hackathons` array when the call returns; the
second is the returned `result` array. -/
def applyFiltersRun (hackathons : List Hackathon) (filters : HackathonFilters) :
    List Hackathon × List Hackathon :=
  let result := hackathons
  let result := searchStage filters result
  let result := sourceStage filters result
  let result := onlineStage filters result
  let result := skillsStage filters result
  let result := sortStage filters result
  (hackathons, result)

/-- The backend's answer to a save/unsave mutation as observed by the
page: success, or a `MutationError` (a non-null `error` field in the
supabase response). -/
inductive MutationResult
  | ok
  | mutationError
deriving DecidableEq

/-- `handleSaveToggle` of the detail page (lines 84–123 of
`HackathonDetail.tsx`), reduced to its effect on the `isSaved` flag:
signed-out users and a missing record return early; otherwise a delete
(when saved) or insert (when not) is attempted and `setIsSaved` runs
only in the `if (!error)` branch. -/
def handleSaveToggle (signedIn : Bool) (hackathonLoaded : Bool)
    (isSaved : Bool) (outcome : MutationResult) : Bool :=
  if !signedIn then isSaved
  else if !hackathonLoaded then isSaved
  else if isSaved then
    match outcome with
    | .ok => false
    | .mutationError => isSaved
  else
    match outcome with
    | .ok => true
    | .mutationError => isSaved

/-- `handleSave` of the listing page (lines 515–542), reduced to its
effect on the `savedIds` set: signed-out users return early; on error a
toast is shown and the set is untouched; on success the id is inserted
(`new Set([...prev, hackathonId])`). -/
def handleSave (signedIn : Bool) (savedIds : Finset String)
    (hackathonId : String) (outcome : MutationResult) : Finset String :=
  if !signedIn then savedIds
  else
    match outcome with
    | .mutationError => savedIds
    | .ok => insert hackathonId savedIds

/-- `handleUnsave` of the listing page (lines 544–564), reduced to its
effect on the `savedIds` set: signed-out users return early; the id is
removed only in the `if (!error)` branch. -/
def handleUnsave (signedIn : Bool) (savedIds : Finset String)
    (hackathonId : String) (outcome : MutationResult) : Finset String :=
  if !signedIn then savedIds
  else
    match outcome with
    | .mutationError => savedIds
    | .ok => savedIds.erase hackathonId

/-- The structured time-remaining value of the countdown engine.
`total` keeps its raw (possibly non-positive) value for sign tests; the
decomposed fields are non-negative. -/
structure TimeRemaining where
  total : Int
  days : Nat
  hours : Nat
  minutes : Nat
  seconds : Nat
deriving DecidableEq

/-- Modelled from the spec: `computeTimeRemaining` of the `useCountdown`
hook (`src/hooks/useCountdown` is imported by both provided source files
but its own file is not among the provided sources).  Per §4.1 of the
spec: `total = deadline - now` in milliseconds; when `total ≤ 0` every
decomposed field is 0 and `total` keeps the raw value; when `total > 0`,
days = ⌊total / 86,400,000⌋ and each further field is the floor of the
remainder left by the next-larger unit. -/
def computeTimeRemaining (deadline now : Int) : TimeRemaining :=
  let total := deadline - now
  if total ≤ 0 then
    { total := total, days := 0, hours := 0, minutes := 0, seconds := 0 }
  else
    let t := total.toNat
    { total := total
      days := t / 86400000
      hours := t % 86400000 / 3600000
      minutes := t % 3600000 / 60000
      seconds := t % 60000 / 1000 }

/-- The four-valued urgency classification of a countdown. -/
inductive CountdownStatus
  | expired
  | urgent
  | soon
  | normal
deriving DecidableEq

/-- Modelled from the spec: `getCountdownStatus` of the `useCountdown`
hook (called `classifyStatus` in the spec; the hook's file is not among
the provided sources).  Per §4.1: total ≤ 0 → expired; total < 24h →
urgent; total < 72h → soon; otherwise normal, with fixed thresholds
24h = 86,400,000 ms and 72h = 259,200,000 ms. -/
def getCountdownStatus (tr : TimeRemaining) : CountdownStatus :=
  if tr.total ≤ 0 then .expired
  else if tr.total < 86400000 then .urgent
  else if tr.total < 259200000 then .soon
  else .normal

/-- Case-insensitive substring occurrence, the comparison the search
stage performs: the lowercased pattern occurs in the lowercased text. -/
def ciSubstr (pat s : String) : Prop :=
  pat.toLower.toList <:+: s.toLower.toList

lemma hasSkill_iff (h : Hackathon) (s : String) :
    hasSkill h s = true ↔ s ∈ h.skills.getD [] := by
  cases hsk : h.skills <;> simp [hasSkill, hsk]

lemma matchesSearch_iff (search : String) (h : Hackathon) :
    matchesSearch search.toLower h = true ↔
      (ciSubstr search h.title ∨
       (∃ d, h.description = some d ∧ ciSubstr search d) ∨
       (∃ s ∈ h.skills.getD [], ciSubstr search s)) := by
  unfold matchesSearch ciSubstr
  cases hd : h.description <;> cases hsk : h.skills <;>
    simp [strIncludes, List.any_eq_true, hd, hsk]
  rw [or_assoc]

lemma mem_searchStage {f : HackathonFilters} {l : List Hackathon} {x : Hackathon} :
    x ∈ searchStage f l ↔
      x ∈ l ∧ (f.search ≠ "" → matchesSearch f.search.toLower x = true) := by
  unfold searchStage
  by_cases hg : f.search = "" <;> simp [hg, List.mem_filter]

lemma mem_sourceStage {f : HackathonFilters} {l : List Hackathon} {x : Hackathon} :
    x ∈ sourceStage f l ↔
      x ∈ l ∧ (∀ src, f.source = some src → (x.source == src) = true) := by
  unfold sourceStage
  cases hs : f.source <;> simp [List.mem_filter]

lemma mem_onlineStage {f : HackathonFilters} {l : List Hackathon} {x : Hackathon} :
    x ∈ onlineStage f l ↔
      x ∈ l ∧ (f.onlineOnly = true → (x.mode == "online" || x.mode == "hybrid") = true) := by
  unfold onlineStage
  by_cases hg : f.onlineOnly <;> simp [hg, List.mem_filter]

lemma mem_skillsStage {f : HackathonFilters} {l : List Hackathon} {x : Hackathon} :
    x ∈ skillsStage f l ↔
      x ∈ l ∧ (f.skills ≠ [] → (f.skills.any fun skill => hasSkill x skill) = true) := by
  unfold skillsStage
  by_cases hg : f.skills = []
  · simp [hg]
  · have hlen : f.skills.length > 0 := List.length_pos.mpr hg
    simp [hlen, hg, List.mem_filter]

lemma deadlineLE_trans : ∀ a b c : Hackathon,
    deadlineLE a b = true → deadlineLE b c = true → deadlineLE a c = true := by
  intro a b c hab hbc
  simp only [deadlineLE, decide_eq_true_eq] at *
  omega

lemma deadlineLE_total : ∀ a b : Hackathon,
    (deadlineLE a b || deadlineLE b a) = true := by
  intro a b
  simp only [deadlineLE, Bool.or_eq_true, decide_eq_true_eq]
  omega

lemma newestLE_trans : ∀ a b c : Hackathon,
    newestLE a b = true → newestLE b c = true → newestLE a c = true := by
  intro a b c hab hbc
  simp only [newestLE, decide_eq_true_eq] at *
  omega

lemma newestLE_total : ∀ a b : Hackathon,
    (newestLE a b || newestLE b a) = true := by
  intro a b
  simp only [newestLE, Bool.or_eq_true, decide_eq_true_eq]
  omega

lemma mem_sortStage {f : HackathonFilters} {l : List Hackathon} {x : Hackathon} :
    x ∈ sortStage f l ↔ x ∈ l := by
  unfold sortStage
  by_cases h1 : f.sortBy = "deadline"
  · simp [h1, (List.mergeSort_perm l deadlineLE).mem_iff]
  · by_cases h2 : f.sortBy = "newest"
    · simp [h1, h2, (List.mergeSort_perm l newestLE).mem_iff]
    · simp [h1, h2]

lemma mem_applyFilters {f : HackathonFilters} {l : List Hackathon} {x : Hackathon} :
    x ∈ applyFilters l f ↔
      x ∈ l ∧
      (f.search ≠ "" → matchesSearch f.search.toLower x = true) ∧
      (∀ src, f.source = some src → (x.source == src) = true) ∧
      (f.onlineOnly = true → (x.mode == "online" || x.mode == "hybrid") = true) ∧
      (f.skills ≠ [] → (f.skills.any fun skill => hasSkill x skill) = true) := by
  unfold applyFilters filterStages
  rw [mem_sortStage, mem_skillsStage, mem_onlineStage, mem_sourceStage, mem_searchStage]
  tauto

lemma searchStage_eq_self {f : HackathonFilters} {l : List Hackathon}
    (h : ∀ x ∈ l, f.search ≠ "" → matchesSearch f.search.toLower x = true) :
    searchStage f l = l := by
  unfold searchStage
  by_cases hg : f.search = ""
  · simp [hg]
  · rw [if_pos hg, List.filter_eq_self]
    exact fun x hx => h x hx hg

lemma sourceStage_eq_self {f : HackathonFilters} {l : List Hackathon}
    (h : ∀ x ∈ l, ∀ src, f.source = some src → (x.source == src) = true) :
    sourceStage f l = l := by
  unfold sourceStage
  cases hs : f.source
  · rfl
  · rw [List.filter_eq_self]
    exact fun x hx => h x hx _ hs

lemma onlineStage_eq_self {f : HackathonFilters} {l : List Hackathon}
    (h : ∀ x ∈ l, f.onlineOnly = true → (x.mode == "online" || x.mode == "hybrid") = true) :
    onlineStage f l = l := by
  unfold onlineStage
  by_cases hg : f.onlineOnly
  · rw [if_pos hg, List.filter_eq_self]
    exact fun x hx => h x hx hg
  · rw [if_neg hg]

lemma skillsStage_eq_self {f : HackathonFilters} {l : List Hackathon}
    (h : ∀ x ∈ l, f.skills ≠ [] → (f.skills.any fun skill => hasSkill x skill) = true) :
    skillsStage f l = l := by
  unfold skillsStage
  by_cases hg : f.skills = []
  · simp [hg]
  · rw [if_pos (List.length_pos.mpr hg), List.filter_eq_self]
    exact fun x hx => h x hx hg

/-- A stable sort does not reorder elements that compare equal: filtering
the sorted list with a predicate on which the comparison is constantly
true gives the same list as filtering the input. -/
lemma mergeSort_filter_stable {α : Type} {le : α → α → Bool}
    (htrans : ∀ a b c, le a b = true → le b c = true → le a c = true)
    (htotal : ∀ a b, (le a b || le b a) = true)
    (p : α → Bool) (hp : ∀ a b, p a = true → p b = true → le a b = true)
    (l : List α) :
    (l.mergeSort le).filter p = l.filter p := by
  have hpair : (l.filter p).Pairwise (fun a b => le a b = true) :=
    List.pairwise_of_forall_mem_list fun a ha b hb =>
      hp a b (List.of_mem_filter ha) (List.of_mem_filter hb)
  have hsub : (l.filter p).Sublist (l.mergeSort le) :=
    List.sublist_mergeSort htrans htotal hpair (List.filter_sublist l)
  have hsubf : ((l.filter p).filter p).Sublist ((l.mergeSort le).filter p) :=
    hsub.filter p
  rw [List.filter_eq_self.mpr fun a ha => List.of_mem_filter ha] at hsubf
  have hlen : ((l.mergeSort le).filter p).length = (l.filter p).length :=
    ((List.mergeSort_perm l le).filter p).length_eq
  exact (hsubf.eq_of_length hlen.symm).symm

lemma sortStage_deadline (f : HackathonFilters) (l : List Hackathon)
    (h : f.sortBy = "deadline") : sortStage f l = l.mergeSort deadlineLE := by
  unfold sortStage
  rw [if_pos h]

lemma sortStage_newest (f : HackathonFilters) (l : List Hackathon)
    (h : f.sortBy = "newest") : sortStage f l = l.mergeSort newestLE := by
  unfold sortStage
  rw [h]
  rfl

lemma sortStage_other (f : HackathonFilters) (l : List Hackathon)
    (h1 : f.sortBy ≠ "deadline") (h2 : f.sortBy ≠ "newest") :
    sortStage f l = l := by
  unfold sortStage
  rw [if_neg h1, if_neg h2]

lemma sortStage_sortStage (f : HackathonFilters) (l : List Hackathon) :
    sortStage f (sortStage f l) = sortStage f l := by
  by_cases h1 : f.sortBy = "deadline"
  · rw [sortStage_deadline f l h1, sortStage_deadline f _ h1]
    exact List.mergeSort_of_sorted (List.sorted_mergeSort deadlineLE_trans deadlineLE_total l)
  · by_cases h2 : f.sortBy = "newest"
    · rw [sortStage_newest f l h2, sortStage_newest f _ h2]
      exact List.mergeSort_of_sorted (List.sorted_mergeSort newestLE_trans newestLE_total l)
    · rw [sortStage_other f l h1 h2, sortStage_other f l h1 h2]

lemma filterStages_default (l : List Hackathon) : filterStages defaultFilters l = l := by
  simp [filterStages, searchStage, sourceStage, onlineStage, skillsStage, defaultFilters]

lemma applyFilters_default (l : List Hackathon) :
    applyFilters l defaultFilters = l.mergeSort deadlineLE := by
  rw [applyFilters, filterStages_default]
  exact sortStage_deadline _ _ rfl

/-- C4: for every deadline and now with deadline > now,
`computeTimeRemaining` returns a positive total and non-negative
days/hours/minutes/seconds with
days·86400000 + hours·3600000 + minutes·60000 + seconds·1000 ≤ total <
days·86400000 + hours·3600000 + minutes·60000 + (seconds+1)·1000,
each field being the floor of the remainder left by the next-larger
unit. -/
theorem countdown_decomposition (deadline now : Int) (h : now < deadline) :
    0 < (computeTimeRemaining deadline now).total ∧
    ((computeTimeRemaining deadline now).days * 86400000 +
     (computeTimeRemaining deadline now).hours * 3600000 +
     (computeTimeRemaining deadline now).minutes * 60000 +
     (computeTimeRemaining deadline now).seconds * 1000 : Int) ≤
      (computeTimeRemaining deadline now).total ∧
    (computeTimeRemaining deadline now).total <
      ((computeTimeRemaining deadline now).days * 86400000 +
       (computeTimeRemaining deadline now).hours * 3600000 +
       (computeTimeRemaining deadline now).minutes * 60000 +
       ((computeTimeRemaining deadline now).seconds + 1) * 1000 : Int) := by
  have hpos : ¬ (deadline - now ≤ 0) := by omega
  simp only [computeTimeRemaining, if_neg hpos]
  omega

/-- Sanity instance of the decomposition at a concrete input:
90061001 ms = 1 day, 1 hour, 1 minute, 1.001 seconds. -/
theorem countdown_decomposition_witness :
    0 < (computeTimeRemaining 90061001 0).total ∧
    ((computeTimeRemaining 90061001 0).days * 86400000 +
     (computeTimeRemaining 90061001 0).hours * 3600000 +
     (computeTimeRemaining 90061001 0).minutes * 60000 +
     (computeTimeRemaining 90061001 0).seconds * 1000 : Int) ≤
      (computeTimeRemaining 90061001 0).total ∧
    (computeTimeRemaining 90061001 0).total <
      ((computeTimeRemaining 90061001 0).days * 86400000 +
       (computeTimeRemaining 90061001 0).hours * 3600000 +
       (computeTimeRemaining 90061001 0).minutes * 60000 +
       ((computeTimeRemaining 90061001 0).seconds + 1) * 1000 : Int) :=
  countdown_decomposition 90061001 0 (by decide)

/-- C5: `getCountdownStatus` classifies by the fixed thresholds:
total ≤ 0 → expired (and for deadline ≤ now all decomposed fields are 0),
0 < total < 24h → urgent, 24h ≤ total < 72h → soon, 72h ≤ total →
normal; at the boundaries 24h−1ms is urgent, 24h is soon and 72h is
normal. -/
theorem countdown_classification :
    (∀ tr : TimeRemaining, tr.total ≤ 0 → getCountdownStatus tr = .expired) ∧
    (∀ deadline now : Int, deadline ≤ now →
      (computeTimeRemaining deadline now).days = 0 ∧
      (computeTimeRemaining deadline now).hours = 0 ∧
      (computeTimeRemaining deadline now).minutes = 0 ∧
      (computeTimeRemaining deadline now).seconds = 0 ∧
      getCountdownStatus (computeTimeRemaining deadline now) = .expired) ∧
    (∀ tr : TimeRemaining, 0 < tr.total → tr.total < 86400000 →
      getCountdownStatus tr = .urgent) ∧
    (∀ tr : TimeRemaining, 86400000 ≤ tr.total → tr.total < 259200000 →
      getCountdownStatus tr = .soon) ∧
    (∀ tr : TimeRemaining, 259200000 ≤ tr.total → getCountdownStatus tr = .normal) ∧
    (∀ tr : TimeRemaining, tr.total = 86400000 - 1 → getCountdownStatus tr = .urgent) ∧
    (∀ tr : TimeRemaining, tr.total = 86400000 → getCountdownStatus tr = .soon) ∧
    (∀ tr : TimeRemaining, tr.total = 259200000 → getCountdownStatus tr = .normal) := by
  refine ⟨?_, ?_, ?_, ?_, ?_, ?_, ?_, ?_⟩
  · intro tr h
    unfold getCountdownStatus
    rw [if_pos h]
  · intro deadline now h
    have ht : deadline - now ≤ 0 := by omega
    simp [computeTimeRemaining, getCountdownStatus, ht]
  all_goals
    intro tr h
    try intro h2
  all_goals
    unfold getCountdownStatus
    split_ifs <;> first | rfl | (exfalso; omega)

/-- Boundary instance: a countdown with exactly 24 h left is `soon`. -/
theorem countdown_classification_witness :
    getCountdownStatus ⟨86400000, 0, 23, 59, 59⟩ = .soon :=
  countdown_classification.2.2.2.2.2.2.1 ⟨86400000, 0, 23, 59, 59⟩ rfl

/-- A concrete record used to instantiate the pipeline theorems. -/
def sampleRecord (i : String) (ddl created : Int) (desc : Option String)
    (sk : Option (List String)) : Hackathon :=
  { id := i, title := "AI Hackathon", description := desc, source := "mlh",
    mode := "online", start_date := 0, end_date := 0,
    registration_deadline := ddl, location := none, prize_pool := none,
    skills := sk, image_url := none, is_active := true, created_at := created,
    registration_url := "" }

/-- C1: with a non-empty required-skills set, the skills stage keeps
exactly the records containing at least one required skill (OR
semantics); in particular a record whose skills are `["Python"]` survives
the whole pipeline when the required skills are `["Python", "Rust"]` and
the other filters are at their defaults. -/
theorem skillsFilter_or_semantics :
    (∀ (l : List Hackathon) (f : HackathonFilters), f.skills ≠ [] →
      ∀ r, r ∈ skillsStage f l ↔ r ∈ l ∧ ∃ s ∈ f.skills, s ∈ r.skills.getD []) ∧
    (∀ (l : List Hackathon) (r : Hackathon), r ∈ l → r.skills = some ["Python"] →
      r ∈ applyFilters l { defaultFilters with skills := ["Python", "Rust"] }) := by
  constructor
  · intro l f hne r
    unfold skillsStage
    rw [if_pos (List.length_pos.mpr hne), List.mem_filter, List.any_eq_true]
    constructor
    · rintro ⟨hl, s, hs, hsk⟩
      exact ⟨hl, s, hs, (hasSkill_iff r s).mp hsk⟩
    · rintro ⟨hl, s, hs, hsk⟩
      exact ⟨hl, s, hs, (hasSkill_iff r s).mpr hsk⟩
  · intro l r hr hsk
    rw [mem_applyFilters]
    refine ⟨hr, fun hs => absurd rfl hs,
      fun src hsrc => by simp [defaultFilters] at hsrc,
      fun ho => by simp [defaultFilters] at ho,
      fun _ => ?_⟩
    rw [List.any_eq_true]
    exact ⟨"Python", by simp [defaultFilters], by rw [hasSkill_iff, hsk]; simp⟩

/-- The record with skills `["Python"]` is kept when required skills are
`["Python", "Rust"]`. -/
theorem skillsFilter_or_semantics_witness :
    sampleRecord "1" 10 0 none (some ["Python"]) ∈
      applyFilters [sampleRecord "1" 10 0 none (some ["Python"])]
        { defaultFilters with skills := ["Python", "Rust"] } :=
  skillsFilter_or_semantics.2 _ _ (by simp) rfl

/-- C3: with a non-empty search text, the search stage keeps exactly the
records where the search text occurs case-insensitively in the title, in
the description, or in some skill tag; with an empty search text the
stage keeps all records unchanged. -/
theorem search_stage_spec :
    (∀ (l : List Hackathon) (f : HackathonFilters), f.search ≠ "" →
      ∀ r, r ∈ searchStage f l ↔
        r ∈ l ∧ (ciSubstr f.search r.title ∨
          (∃ d, r.description = some d ∧ ciSubstr f.search d) ∨
          (∃ s ∈ r.skills.getD [], ciSubstr f.search s))) ∧
    (∀ (l : List Hackathon) (f : HackathonFilters), f.search = "" →
      searchStage f l = l) := by
  constructor
  · intro l f hne r
    unfold searchStage
    rw [if_pos hne, List.mem_filter, matchesSearch_iff]
  · intro l f he
    unfold searchStage
    rw [if_neg (by simp [he])]

/-- Instance of the search characterization at search text "ai". -/
theorem search_stage_spec_witness :
    sampleRecord "1" 10 0 none none ∈
        searchStage { defaultFilters with search := "ai" }
          [sampleRecord "1" 10 0 none none] ↔
      sampleRecord "1" 10 0 none none ∈ [sampleRecord "1" 10 0 none none] ∧
      (ciSubstr "ai" (sampleRecord "1" 10 0 none none).title ∨
        (∃ d, (sampleRecord "1" 10 0 none none).description = some d ∧ ciSubstr "ai" d) ∨
        (∃ s ∈ (sampleRecord "1" 10 0 none none).skills.getD [], ciSubstr "ai" s)) :=
  search_stage_spec.1 [sampleRecord "1" 10 0 none none]
    { defaultFilters with search := "ai" } (by simp) (sampleRecord "1" 10 0 none none)

/-- C6: `applyFilters` is idempotent — applying the pipeline with the
same spec to its own output returns that output unchanged. -/
theorem applyFilters_idempotent (l : List Hackathon) (f : HackathonFilters) :
    applyFilters (applyFilters l f) f = applyFilters l f := by
  have hmem := fun x (hx : x ∈ applyFilters l f) => mem_applyFilters.mp hx
  conv_lhs => rw [applyFilters, filterStages]
  rw [searchStage_eq_self fun x hx => (hmem x hx).2.1,
    sourceStage_eq_self fun x hx => (hmem x hx).2.2.1,
    onlineStage_eq_self fun x hx => (hmem x hx).2.2.2.1,
    skillsStage_eq_self fun x hx => (hmem x hx).2.2.2.2,
    applyFilters]
  exact sortStage_sortStage f _

/-- C7: the pipeline never mutates its input — in the state-passing
rendering of `filteredHackathons`, the content of the caller's array
after the call is the original sequence, and the returned array holds
the pure pipeline result. -/
theorem applyFilters_no_mutation (l : List Hackathon) (f : HackathonFilters) :
    (applyFiltersRun l f).1 = l ∧ (applyFiltersRun l f).2 = applyFilters l f :=
  ⟨rfl, rfl⟩

/-- C8: the pipeline degrades gracefully on absent optional fields:
an absent description or skills field never matches the search predicate
(only the title can match), an absent skills field never satisfies a
required skill, a record with both fields absent is retained by the
all-default spec, and the pipeline always returns at most as many
records as it was given. -/
theorem pipeline_null_fields :
    (∀ (s : String) (r : Hackathon), r.description = none → r.skills = none →
      matchesSearch s r = strIncludes r.title.toLower s) ∧
    (∀ (r : Hackathon) (sk : String), r.skills = none → hasSkill r sk = false) ∧
    (∀ (l : List Hackathon) (r : Hackathon), r.description = none → r.skills = none →
      r ∈ l → r ∈ applyFilters l defaultFilters) ∧
    (∀ (l : List Hackathon) (f : HackathonFilters),
      (applyFilters l f).length ≤ l.length) := by
  refine ⟨?_, ?_, ?_, ?_⟩
  · intro s r hd hsk
    simp [matchesSearch, hd, hsk]
  · intro r sk hsk
    simp [hasSkill, hsk]
  · intro l r _ _ hr
    rw [mem_applyFilters]
    exact ⟨hr, fun hs => absurd rfl hs,
      fun src hsrc => by simp [defaultFilters] at hsrc,
      fun ho => by simp [defaultFilters] at ho,
      fun hsk => absurd rfl hsk⟩
  · intro l f
    have hsort : ∀ m : List Hackathon, (sortStage f m).length = m.length := by
      intro m
      unfold sortStage
      split_ifs <;> simp [List.length_mergeSort]
    have hsearch : (searchStage f l).length ≤ l.length := by
      unfold searchStage
      split_ifs <;> first | exact List.length_filter_le _ _ | exact le_rfl
    have hsource : ∀ m : List Hackathon, (sourceStage f m).length ≤ m.length := by
      intro m
      unfold sourceStage
      cases f.source <;> first | exact le_rfl | exact List.length_filter_le _ _
    have honline : ∀ m : List Hackathon, (onlineStage f m).length ≤ m.length := by
      intro m
      unfold onlineStage
      split_ifs <;> first | exact List.length_filter_le _ _ | exact le_rfl
    have hskills : ∀ m : List Hackathon, (skillsStage f m).length ≤ m.length := by
      intro m
      unfold skillsStage
      split_ifs <;> first | exact List.length_filter_le _ _ | exact le_rfl
    calc (applyFilters l f).length
        = (filterStages f l).length := hsort _
      _ ≤ l.length := le_trans (hskills _) (le_trans (honline _)
          (le_trans (hsource _) hsearch))

/-- A record with null description and null skills is retained by the
all-default spec. -/
theorem pipeline_null_fields_witness :
    sampleRecord "n" 5 0 none none ∈
      applyFilters [sampleRecord "n" 5 0 none none] defaultFilters :=
  pipeline_null_fields.2.2.1 [sampleRecord "n" 5 0 none none]
    (sampleRecord "n" 5 0 none none) rfl rfl (by simp)

/-- C9: the save/unsave toggle is atomic with respect to failure — when
the mutation signals a `MutationError`, the `isSaved` flag of the detail
page and the `savedIds` set of the listing page are left exactly as they
were; the state flips only after a successful mutation. -/
theorem saveToggle_atomic_on_failure :
    (∀ (signedIn loaded isSaved : Bool),
      handleSaveToggle signedIn loaded isSaved .mutationError = isSaved) ∧
    (∀ (signedIn : Bool) (ids : Finset String) (hid : String),
      handleSave signedIn ids hid .mutationError = ids) ∧
    (∀ (signedIn : Bool) (ids : Finset String) (hid : String),
      handleUnsave signedIn ids hid .mutationError = ids) ∧
    (∀ isSaved : Bool, handleSaveToggle true true isSaved .ok = !isSaved) := by
  refine ⟨?_, ?_, ?_, ?_⟩
  · intro s ld sv
    cases s <;> cases ld <;> cases sv <;> rfl
  · intro s ids hid
    cases s <;> rfl
  · intro s ids hid
    cases s <;> rfl
  · intro sv
    cases sv <;> rfl

/-- C10: the skills filter compares skills by exact, case-sensitive
equality — a record whose skills contain "python" but not "Python" is
removed when the required skills are `["Python"]`, while requiring
`["python"]` keeps it. -/
theorem skillsFilter_case_sensitive :
    (∀ (l : List Hackathon) (f : HackathonFilters) (r : Hackathon),
      f.skills = ["Python"] → "python" ∈ r.skills.getD [] →
      "Python" ∉ r.skills.getD [] → r ∉ applyFilters l f) ∧
    (∀ (l : List Hackathon) (r : Hackathon), r.skills = some ["python"] → r ∈ l →
      r ∈ applyFilters l { defaultFilters with skills := ["python"] }) := by
  constructor
  · intro l f r hf _ hno hmem
    have hne : f.skills ≠ [] := by rw [hf]; simp
    have hany := (mem_applyFilters.mp hmem).2.2.2.2 hne
    rw [hf, List.any_eq_true] at hany
    obtain ⟨s, hs, hsk⟩ := hany
    rw [List.mem_singleton] at hs
    subst hs
    exact hno ((hasSkill_iff r "Python").mp hsk)
  · intro l r hsk hr
    rw [mem_applyFilters]
    refine ⟨hr, fun hs => absurd rfl hs,
      fun src hsrc => by simp [defaultFilters] at hsrc,
      fun ho => by simp [defaultFilters] at ho,
      fun _ => ?_⟩
    rw [List.any_eq_true]
    exact ⟨"python", by simp [defaultFilters], by rw [hasSkill_iff, hsk]; simp⟩

/-- A record whose only skill is "python" is removed when the required
skills are `["Python"]`. -/
theorem skillsFilter_case_sensitive_witness :
    sampleRecord "p" 5 0 none (some ["python"]) ∉
      applyFilters [sampleRecord "p" 5 0 none (some ["python"])]
        { defaultFilters with skills := ["Python"] } :=
  skillsFilter_case_sensitive.1 _ _ _ rfl (by simp [sampleRecord]) (by simp [sampleRecord])

/-- C2: with sort key "deadline" the surviving records are stably sorted
in ascending `registration_deadline` order; with "newest" stably in
descending `created_at` order; any other key leaves the filtered order
untouched.  Stability is stated as: the output is a permutation of the
filtered input, and for every key value the equal-key records appear in
the same order as in the filtered input.  With the all-default spec the
output has the length of the input and is in non-decreasing
`registration_deadline` order. -/
theorem applyFilters_sort_spec (l : List Hackathon) (f : HackathonFilters) :
    (f.sortBy = "deadline" →
      List.Pairwise (fun a b : Hackathon =>
        a.registration_deadline ≤ b.registration_deadline) (applyFilters l f) ∧
      (applyFilters l f).Perm (filterStages f l) ∧
      ∀ k : Int, (applyFilters l f).filter (fun r => decide (r.registration_deadline = k)) =
        (filterStages f l).filter (fun r => decide (r.registration_deadline = k))) ∧
    (f.sortBy = "newest" →
      List.Pairwise (fun a b : Hackathon =>
        b.created_at ≤ a.created_at) (applyFilters l f) ∧
      (applyFilters l f).Perm (filterStages f l) ∧
      ∀ k : Int, (applyFilters l f).filter (fun r => decide (r.created_at = k)) =
        (filterStages f l).filter (fun r => decide (r.created_at = k))) ∧
    (f.sortBy ≠ "deadline" → f.sortBy ≠ "newest" →
      applyFilters l f = filterStages f l) ∧
    ((applyFilters l defaultFilters).length = l.length ∧
      List.Pairwise (fun a b : Hackathon =>
        a.registration_deadline ≤ b.registration_deadline)
        (applyFilters l defaultFilters)) := by
  refine ⟨?_, ?_, ?_, ?_, ?_⟩
  · intro h
    have e : applyFilters l f = (filterStages f l).mergeSort deadlineLE := by
      rw [applyFilters, sortStage_deadline f _ h]
    refine ⟨?_, ?_, ?_⟩
    · rw [e]
      exact (List.sorted_mergeSort deadlineLE_trans deadlineLE_total _).imp
        fun hab => by simpa [deadlineLE] using hab
    · rw [e]
      exact List.mergeSort_perm _ _
    · intro k
      rw [e]
      exact mergeSort_filter_stable deadlineLE_trans deadlineLE_total _
        (fun a b ha hb => by
          simp only [decide_eq_true_eq] at ha hb
          simp [deadlineLE, ha, hb]) _
  · intro h
    have e : applyFilters l f = (filterStages f l).mergeSort newestLE := by
      rw [applyFilters, sortStage_newest f _ h]
    refine ⟨?_, ?_, ?_⟩
    · rw [e]
      exact (List.sorted_mergeSort newestLE_trans newestLE_total _).imp
        fun hab => by simpa [newestLE] using hab
    · rw [e]
      exact List.mergeSort_perm _ _
    · intro k
      rw [e]
      exact mergeSort_filter_stable newestLE_trans newestLE_total _
        (fun a b ha hb => by
          simp only [decide_eq_true_eq] at ha hb
          simp [newestLE, ha, hb]) _
  · intro h1 h2
    rw [applyFilters, sortStage_other f _ h1 h2]
  · rw [applyFilters_default]
    exact List.length_mergeSort l
  · rw [applyFilters_default]
    exact (List.sorted_mergeSort deadlineLE_trans deadlineLE_total _).imp
      fun hab => by simpa [deadlineLE] using hab

/-- Instance of the sort specification for the all-default spec on a
two-record input: the output is sorted by ascending deadline. -/
theorem applyFilters_sort_spec_witness :
    List.Pairwise (fun a b : Hackathon =>
        a.registration_deadline ≤ b.registration_deadline)
      (applyFilters [sampleRecord "1" 3600000 0 none none,
        sampleRecord "2" 360000000 1 none none] defaultFilters) :=
  ((applyFilters_sort_spec [sampleRecord "1" 3600000 0 none none,
      sampleRecord "2" 360000000 1 none none] defaultFilters).1 rfl).1
